import Mathlib

/-!
# Patchwerk encounter AI and Seal of Martyrdom

A shallow embedding of `sim/encounters/naxxramas/patchwerk_ai.go` and
`sim/paladin/som.go`.

Conventions of the embedding:

* `time.Duration` is a signed 64 bit count of nanoseconds.  It is embedded as `Int`, and every
  addition the source performs on durations goes through `wrapInt64`.
* `float64` quantities (multipliers, damage, percentages) are embedded as rationals `ℚ`, with
  exact arithmetic; the hooks of the Frenzy aura are also given with every operation rounded
  as `float64` rounds it (`roundFloat64`).
* Pointers to units are embedded as unit identifiers (`UnitRef`).
* Package `core` is not part of the two source files.  Functions of `core` that the source
  calls are parameters of the embedding (`Core`, `PaladinCore`), constants of `core` are the
  fields of `CoreConsts`, and every call into `core` is recorded, with its arguments and its
  returned value, in a list of calls.
-/

namespace Sod

/-! ## Durations -/

/-- Go `time.Millisecond`, in nanoseconds. -/
def Millisecond : Int := 1000000

/-- Go `time.Second`, in nanoseconds. -/
def Second : Int := 1000 * Millisecond

/-- Go `time.Minute`, in nanoseconds. -/
def Minute : Int := 60 * Second

/-- Largest value of a Go `int64`. -/
def MaxInt64 : Int := 9223372036854775807

/-- Smallest value of a Go `int64`. -/
def MinInt64 : Int := -9223372036854775808

/-- Two's complement wrap-around of a Go `int64` result. -/
def wrapInt64 (x : Int) : Int := (x + 9223372036854775808) % 18446744073709551616 - 9223372036854775808

/-- The value is representable as a Go `int64`. -/
def fitsInt64 (x : Int) : Prop := MinInt64 ≤ x ∧ x ≤ MaxInt64

instance (x : Int) : Decidable (fitsInt64 x) := by
  unfold fitsInt64; exact inferInstance

/-- Units are referred to by identifier where the source holds a `*core.Unit`. -/
abbrev UnitRef := Nat

/-! ## Constants declared outside the two source files -/

/-- Constants of package `core` (and of other files of the packages) that the source names
but does not declare.  Masks and flags are bit sets. -/
structure CoreConsts where
  SchoolIndexPhysical : Nat
  ProcMaskRanged : Nat
  ProcMaskMeleeMHSpecial : Nat
  ProcMaskMeleeWhiteHit : Nat
  ProcMaskMeleeProc : Nat
  SpellFlagMeleeMetrics : Nat
  SpellFlagNoOnCastComplete : Nat
  SpellFlagSuppressWeaponProcs : Nat
  SpellFlagBatchStartAttackMacro : Nat
  SpellFlagNotAProc : Nat
  SpellFlagAPL : Nat
  SpellFlag_RV : Nat
  SpellBatchWindow : Int
  ActionPriorityLow : Int
  SealbearerDamageModifier : ℚ

/-- The part of `core.SpellConfig` the two files set.  `CD` is the cooldown duration, zero
when the spell is configured without a cooldown; each spell with a cooldown gets a timer of
its own (`target.NewTimer()`). -/
structure Spell where
  SpellID : Nat
  ProcMask : Nat
  Flags : Nat
  CD : Int
  DamageMultiplier : ℚ
  deriving DecidableEq

/-! ## Patchwerk: configuration and initialisation -/

/-- Go `proto.InputType`. -/
inductive InputType where
  | InputType_Bool
  | InputType_Number
  | InputType_Enum
  deriving DecidableEq

/-- Go `proto.TargetInput`; fields that a literal leaves out hold the zero value. -/
structure TargetInput where
  Label : String
  InputType : InputType
  BoolValue : Bool
  NumberValue : ℚ
  EnumValue : Int
  deriving DecidableEq

/-- Go `proto.Target`, the fields the preset sets. -/
structure TargetConfig where
  Id : Nat
  Name : String
  Level : Nat
  TankIndex : Nat
  SwingSpeed : ℚ
  MinBaseDamage : ℚ
  DamageSpread : ℚ
  TargetInputs : List TargetInput

/-- The `Config` literal of `addPatchwerk`.  `NaxxramasDifficultyLevels` is declared in
another file of the package and is a parameter. -/
def patchwerkConfig (NaxxramasDifficultyLevels : TargetInput) : TargetConfig :=
  { Id := 16028
    Name := "Patchwerk"
    Level := 63
    TankIndex := 0
    SwingSpeed := 3 / 4
    MinBaseDamage := 7166
    DamageSpread := 1 / 10
    TargetInputs :=
      [ NaxxramasDifficultyLevels,
        { Label := "Hateful Tank", InputType := .InputType_Bool,
          BoolValue := false, NumberValue := 0, EnumValue := 0 },
        { Label := "Percent of Hatefuls Taken", InputType := .InputType_Number,
          BoolValue := false, NumberValue := 70, EnumValue := 0 } ] }

/-- Go `core.Party`: the units of its players (`Players[i].GetCharacter().Unit`). -/
structure Party where
  Players : List UnitRef

/-- Go `core.Raid`. -/
structure Raid where
  Parties : List Party

/-- Go `core.Environment`. -/
structure Environment where
  Raid : Raid

/-- Go `core.Target`, the fields the AI reads. -/
structure Target where
  CurrentTarget : Option UnitRef
  Env : Environment

/-- Go `PatchwerkAI`.  `authorityFrozenWastesStacks` belongs to the embedded
`NaxxramasEncounter`. -/
structure PatchwerkAI where
  authorityFrozenWastesStacks : Int
  Target : Target
  isHatefulTank : Bool
  hatefulPercent : ℚ
  HatefulStrikePrimer : Spell
  HatefulStrike : Spell
  Frenzy : Spell

/-- The spell registered by `registerHatefulStrikePrimerSpell`. -/
def registerHatefulStrikePrimerSpell (k : CoreConsts) : Spell :=
  { SpellID := 28307
    ProcMask := k.ProcMaskRanged
    Flags := k.SpellFlagMeleeMetrics
    CD := Millisecond * 1200
    DamageMultiplier := 0 }

/-- The spell registered by `registerHatefulStrikeSpell`. -/
def registerHatefulStrikeSpell (k : CoreConsts) : Spell :=
  { SpellID := 28308
    ProcMask := k.ProcMaskMeleeMHSpecial
    Flags := k.SpellFlagMeleeMetrics
    CD := Millisecond * 1200
    DamageMultiplier := 1 }

/-- The spell registered by `registerFrenzySpell`. -/
def registerFrenzySpell (k : CoreConsts) : Spell :=
  { SpellID := 28131
    ProcMask := 0
    Flags := k.SpellFlagNoOnCastComplete
    CD := Minute * 5
    DamageMultiplier := 0 }

/-- Go `PatchwerkAI.Initialize`.  Indexing `config.TargetInputs` out of range panics, which
is the result `none`; the inputs are read in the order 1, 2, 0 of the source.  The aura that
`registerAuthorityOfTheFrozenWastesAura` registers from the stack count is declared outside
the two files and is not part of the result. -/
def Initialize (k : CoreConsts) (target : Target) (config : TargetConfig) : Option PatchwerkAI :=
  match config.TargetInputs[1]? with
  | none => none
  | some hatefulTank =>
    match config.TargetInputs[2]? with
    | none => none
    | some percent =>
      match config.TargetInputs[0]? with
      | none => none
      | some difficulty =>
        some
          { authorityFrozenWastesStacks := difficulty.EnumValue
            Target := target
            isHatefulTank := hatefulTank.BoolValue
            hatefulPercent := percent.NumberValue / 100
            HatefulStrikePrimer := registerHatefulStrikePrimerSpell k
            HatefulStrike := registerHatefulStrikeSpell k
            Frenzy := registerFrenzySpell k }

/-! ## Patchwerk: the Frenzy aura -/

/-- Go `stats.PseudoStats`, the two multipliers the aura touches.
`SchoolDamageDealtMultiplier` is an array indexed by school. -/
structure PseudoStats where
  SchoolDamageDealtMultiplier : Nat → ℚ
  MeleeSpeedMultiplier : ℚ

/-- Go `core.Unit`, restricted to its pseudo stats. -/
structure CombatUnit where
  PseudoStats : PseudoStats

/-- Modelled from the spec: `Unit.MultiplyMeleeSpeed` of package `core` is missing from the
sources; following section 4.3 (hooks multiply damage and speed modifiers of the owner) it
multiplies the melee speed modifier of the unit by `amount`. -/
def MultiplyMeleeSpeed (u : CombatUnit) (amount : ℚ) : CombatUnit :=
  { u with PseudoStats := { u.PseudoStats with
      MeleeSpeedMultiplier := u.PseudoStats.MeleeSpeedMultiplier * amount } }

/-- Go `core.Aura`, the fields `registerFrenzySpell` sets. -/
structure Aura where
  SpellID : Nat
  Label : String
  Duration : Int
  OnGain : CombatUnit → CombatUnit
  OnExpire : CombatUnit → CombatUnit

/-- The `OnGain` hook of the Frenzy aura in exact rational arithmetic; `frenzyOnGain64` is
the hook in `float64` arithmetic. -/
def frenzyOnGain (k : CoreConsts) (u : CombatUnit) : CombatUnit :=
  let u1 : CombatUnit := { u with PseudoStats := { u.PseudoStats with
    SchoolDamageDealtMultiplier := fun i =>
      if i = k.SchoolIndexPhysical then u.PseudoStats.SchoolDamageDealtMultiplier i * (5 / 4)
      else u.PseudoStats.SchoolDamageDealtMultiplier i } }
  MultiplyMeleeSpeed u1 (7 / 5)

/-- The `OnExpire` hook of the Frenzy aura in exact rational arithmetic; `frenzyOnExpire64`
is the hook in `float64` arithmetic. -/
def frenzyOnExpire (k : CoreConsts) (u : CombatUnit) : CombatUnit :=
  let u1 : CombatUnit := { u with PseudoStats := { u.PseudoStats with
    SchoolDamageDealtMultiplier := fun i =>
      if i = k.SchoolIndexPhysical then u.PseudoStats.SchoolDamageDealtMultiplier i / (5 / 4)
      else u.PseudoStats.SchoolDamageDealtMultiplier i } }
  MultiplyMeleeSpeed u1 (1 / (7 / 5))

/-- The aura registered by `registerFrenzySpell` (`frenzyAura`), with its hooks in exact
rational arithmetic. -/
def frenzyAura (k : CoreConsts) : Aura :=
  { SpellID := 28131
    Label := "Frenzy"
    Duration := 5 * Minute
    OnGain := frenzyOnGain k
    OnExpire := frenzyOnExpire k }

/-- One apply and expire cycle of an aura: `OnGain` followed by `OnExpire`. -/
def gainThenExpire (aura : Aura) (u : CombatUnit) : CombatUnit :=
  aura.OnExpire (aura.OnGain u)

/-! ## Patchwerk: the Frenzy aura in `float64` arithmetic -/

/-- Round to the nearest integer, ties to the even one. -/
def roundHalfEven (q : ℚ) : Int :=
  if q - ⌊q⌋ < 1 / 2 then ⌊q⌋
  else if 1 / 2 < q - ⌊q⌋ then ⌊q⌋ + 1
  else if ⌊q⌋ % 2 = 0 then ⌊q⌋ else ⌊q⌋ + 1

/-- The result of a Go `float64` operation whose exact result is `q`: `q` rounded to the
nearest number with a significand of 53 bits, ties to even (IEEE 754 binary64).  With
`2 ^ e <= |q| < 2 ^ (e + 1)` the spacing of those numbers is `2 ^ (e - 52)`.  Overflow,
subnormal numbers and NaN are left out: the multipliers are far inside the normal range. -/
def roundFloat64 (q : ℚ) : ℚ :=
  if q = 0 then 0
  else (roundHalfEven (q / 2 ^ (Int.log 2 |q| - 52)) : ℚ) * 2 ^ (Int.log 2 |q| - 52)

/-- Modelled from the spec: `Unit.MultiplyMeleeSpeed` as in `MultiplyMeleeSpeed`, with the
product taken in `float64`. -/
def MultiplyMeleeSpeed64 (u : CombatUnit) (amount : ℚ) : CombatUnit :=
  { u with PseudoStats := { u.PseudoStats with
      MeleeSpeedMultiplier := roundFloat64 (u.PseudoStats.MeleeSpeedMultiplier * amount) } }

/-- The `OnGain` hook of the Frenzy aura in `float64` arithmetic.  The constant 1.25 is a
`float64` value; the constant 1.4 is the `float64` nearest to 7/5. -/
def frenzyOnGain64 (k : CoreConsts) (u : CombatUnit) : CombatUnit :=
  let u1 : CombatUnit := { u with PseudoStats := { u.PseudoStats with
    SchoolDamageDealtMultiplier := fun i =>
      if i = k.SchoolIndexPhysical then
        roundFloat64 (u.PseudoStats.SchoolDamageDealtMultiplier i * (5 / 4))
      else u.PseudoStats.SchoolDamageDealtMultiplier i } }
  MultiplyMeleeSpeed64 u1 (roundFloat64 (7 / 5))

/-- The `OnExpire` hook of the Frenzy aura in `float64` arithmetic.  The constant expression
`1.0/1.4` is evaluated exactly by the compiler and then converted to `float64`. -/
def frenzyOnExpire64 (k : CoreConsts) (u : CombatUnit) : CombatUnit :=
  let u1 : CombatUnit := { u with PseudoStats := { u.PseudoStats with
    SchoolDamageDealtMultiplier := fun i =>
      if i = k.SchoolIndexPhysical then
        roundFloat64 (u.PseudoStats.SchoolDamageDealtMultiplier i / (5 / 4))
      else u.PseudoStats.SchoolDamageDealtMultiplier i } }
  MultiplyMeleeSpeed64 u1 (roundFloat64 (1 / (7 / 5)))

/-- The aura registered by `registerFrenzySpell` (`frenzyAura`), with its hooks in `float64`
arithmetic. -/
def frenzyAura64 (k : CoreConsts) : Aura :=
  { SpellID := 28131
    Label := "Frenzy"
    Duration := 5 * Minute
    OnGain := frenzyOnGain64 k
    OnExpire := frenzyOnExpire64 k }

/-! ## Patchwerk: the rotation -/

/-- The three spells of the AI, named after the fields of `PatchwerkAI` that hold them. -/
inductive SpellId where
  | HatefulStrikePrimer
  | Frenzy
  | HatefulStrike
  deriving DecidableEq

/-- The spell a field of the AI holds. -/
def PatchwerkAI.spell (ai : PatchwerkAI) : SpellId → Spell
  | .HatefulStrikePrimer => ai.HatefulStrikePrimer
  | .Frenzy => ai.Frenzy
  | .HatefulStrike => ai.HatefulStrike

/-- The functions of package `core` that `ExecuteCustomRotation` calls, as parameters over a
state `σ` of the simulation.  The clock `sim.CurrentTime` is passed to them as `now`; no call
made by the rotation moves it. -/
structure Core (σ : Type) where
  /-- Go `spell.IsReady(sim)`. -/
  IsReady : SpellId → Int → σ → Bool
  /-- Go `spell.Cast(sim, target)`. -/
  Cast : SpellId → UnitRef → Int → σ → σ
  /-- Go `sim.GetRemainingDurationPercent()`. -/
  GetRemainingDurationPercent : Int → σ → ℚ
  /-- Go `ai.Target.AutoAttacks.CancelAutoSwing(sim)`. -/
  CancelAutoSwing : Int → σ → σ
  /-- Go `sim.Proc(chance, label)`: the outcome of the roll and the state after it. -/
  Proc : ℚ → Int → σ → Bool × σ
  /-- Go `ai.Target.WaitUntil(sim, readyTime)`. -/
  WaitUntil : Int → Int → σ → σ

/-- A call into package `core` issued by the rotation, with the value it returned. -/
inductive Call where
  | IsReady (spell : SpellId) (ready : Bool)
  | Cast (spell : SpellId) (target : UnitRef)
  | GetRemainingDurationPercent (percent : ℚ)
  | CancelAutoSwing
  | Proc (chance : ℚ) (success : Bool)
  | WaitUntil (readyTime : Int)
  deriving DecidableEq

/-- The state of the simulation together with the calls issued so far, oldest first. -/
structure Run (σ : Type) where
  sim : σ
  calls : List Call

/-- Issue `spell.IsReady(sim)`. -/
def Run.isReady (core : Core σ) (spell : SpellId) (now : Int) (r : Run σ) : Bool × Run σ :=
  let ready := core.IsReady spell now r.sim
  (ready, { r with calls := r.calls ++ [Call.IsReady spell ready] })

/-- Issue `spell.Cast(sim, target)`. -/
def Run.cast (core : Core σ) (spell : SpellId) (target : UnitRef) (now : Int) (r : Run σ) : Run σ :=
  { sim := core.Cast spell target now r.sim, calls := r.calls ++ [Call.Cast spell target] }

/-- Issue `sim.GetRemainingDurationPercent()`. -/
def Run.remaining (core : Core σ) (now : Int) (r : Run σ) : ℚ × Run σ :=
  let percent := core.GetRemainingDurationPercent now r.sim
  (percent, { r with calls := r.calls ++ [Call.GetRemainingDurationPercent percent] })

/-- Issue `AutoAttacks.CancelAutoSwing(sim)`. -/
def Run.cancelAutoSwing (core : Core σ) (now : Int) (r : Run σ) : Run σ :=
  { sim := core.CancelAutoSwing now r.sim, calls := r.calls ++ [Call.CancelAutoSwing] }

/-- Issue `sim.Proc(chance, label)`. -/
def Run.proc (core : Core σ) (chance : ℚ) (now : Int) (r : Run σ) : Bool × Run σ :=
  let res := core.Proc chance now r.sim
  (res.1, { sim := res.2, calls := r.calls ++ [Call.Proc chance res.1] })

/-- Issue `Target.WaitUntil(sim, readyTime)`. -/
def Run.waitUntil (core : Core σ) (readyTime : Int) (now : Int) (r : Run σ) : Run σ :=
  { sim := core.WaitUntil readyTime now r.sim, calls := r.calls ++ [Call.WaitUntil readyTime] }

/-- Lines 174 to 179 of the source: the current target of the boss, or, when it is nil, the
unit of `Env.Raid.Parties[0].Players[0]`.  Indexing an empty slice panics (`none`). -/
def resolveTarget (t : Target) : Option UnitRef :=
  match t.CurrentTarget with
  | some u => some u
  | none =>
    match t.Env.Raid.Parties[0]? with
    | none => none
    | some party => party.Players[0]?

/-- Lines 181 to 183 of the source: cast Hateful Strike Primer when it is ready. -/
def castPrimerIfReady (core : Core σ) (target : UnitRef) (now : Int) (r : Run σ) : Run σ :=
  let ready := Run.isReady core .HatefulStrikePrimer now r
  if ready.1 then Run.cast core .HatefulStrikePrimer target now ready.2 else ready.2

/-- Lines 185 to 187 of the source: cast Frenzy when it is ready and less than 5 percent of
the encounter remains.  The remaining duration is asked for only when Frenzy is ready. -/
def castFrenzyIfReady (core : Core σ) (target : UnitRef) (now : Int) (r : Run σ) : Run σ :=
  let ready := Run.isReady core .Frenzy now r
  if ready.1 then
    let percent := Run.remaining core now ready.2
    if percent.1 < 5 / 100 then Run.cast core .Frenzy target now percent.2 else percent.2
  else ready.2

/-- Lines 189 to 199 of the source: the hateful tank branch. -/
def hatefulStrikeOrWait (core : Core σ) (ai : PatchwerkAI) (target : UnitRef) (now : Int)
    (r : Run σ) : Run σ :=
  if ai.isHatefulTank then
    let cancelled := Run.cancelAutoSwing core now r
    let ready := Run.isReady core .HatefulStrike now cancelled
    if ready.1 then
      let roll := Run.proc core ai.hatefulPercent now ready.2
      if roll.1 then Run.cast core .HatefulStrike target now roll.2
      else Run.waitUntil core (wrapInt64 (now + 1200 * Millisecond)) now roll.2
    else ready.2
  else r

/-- Lines 181 to 199 of the source, with the target resolved: the three statements in
sequence. -/
def rotationBody (core : Core σ) (ai : PatchwerkAI) (target : UnitRef) (now : Int)
    (r0 : Run σ) : Run σ :=
  hatefulStrikeOrWait core ai target now
    (castFrenzyIfReady core target now (castPrimerIfReady core target now r0))

/-- Go `PatchwerkAI.ExecuteCustomRotation`, invoked at `sim.CurrentTime = now` in the state
`s`.  The result is the state afterwards and the calls into `core` of this invocation in the
order they were made, or `none` when the invocation panics. -/
def ExecuteCustomRotation (core : Core σ) (ai : PatchwerkAI) (now : Int) (s : σ) :
    Option (σ × List Call) :=
  match resolveTarget ai.Target with
  | none => none
  | some target =>
    let r := rotationBody core ai target now { sim := s, calls := [] }
    some (r.sim, r.calls)

/-- The spell casts among the calls, in order. -/
def casts : List Call → List (SpellId × UnitRef)
  | [] => []
  | Call.Cast spell target :: cs => (spell, target) :: casts cs
  | _ :: cs => casts cs

/-- The times passed to `WaitUntil` among the calls, in order. -/
def waits : List Call → List Int
  | [] => []
  | Call.WaitUntil t :: cs => t :: waits cs
  | _ :: cs => waits cs

/-- The casts of `spell` among the calls, in order. -/
def spellCasts (spell : SpellId) (cs : List Call) : List (SpellId × UnitRef) :=
  (casts cs).filter (fun c => c.1 = spell)

/-- How often `spell` is cast among the calls. -/
def castCount (spell : SpellId) (cs : List Call) : Nat :=
  (spellCasts spell cs).length

/-! ## Cooldown timers -/

/-- The `ready_at` time of the cooldown timer of each spell. -/
abbrev Timers := SpellId → Int

/-- Overwrite the timer of one spell. -/
def Timers.set (t : Timers) (spell : SpellId) (readyAt : Int) : Timers :=
  fun s => if s = spell then readyAt else t s

/-- What the rest of the simulation answers during one invocation of the rotation: the clock,
the remaining fraction of the encounter and the random number the proc roll draws. -/
structure Invocation where
  now : Int
  remainingDurationPercent : ℚ
  randomFloat : ℚ

/-- Modelled from the spec: `Spell.IsReady`, `Spell.Cast`, the cooldown timer and `sim.Proc`
of package `core` are missing from the sources.  Following sections 4.2 and 4.4, a timer is
ready iff `ready_at <= time`; a cast is legal iff the timer of the spell is ready, an illegal
cast is a no-op, and a legal cast starts the timer: `ready_at = time + duration` (an `int64`
addition).  Timers change by casts of their own spell only.  Following section 4.5 the proc
roll succeeds when the random number drawn is below the chance.  Auto attacks and the wait
are not part of this state. -/
def timerCore (ai : PatchwerkAI) (inv : Invocation) : Core Timers :=
  { IsReady := fun spell now t => decide (t spell ≤ now)
    Cast := fun spell _ now t =>
      if t spell ≤ now then t.set spell (wrapInt64 (now + (ai.spell spell).CD)) else t
    GetRemainingDurationPercent := fun _ _ => inv.remainingDurationPercent
    CancelAutoSwing := fun _ t => t
    Proc := fun chance _ t => (decide (inv.randomFloat < chance), t)
    WaitUntil := fun _ _ t => t }

/-- One invocation of the rotation on the timers, at the time `inv.now`. -/
def invoke (ai : PatchwerkAI) (inv : Invocation) (t : Timers) : Option (Timers × List Call) :=
  ExecuteCustomRotation (timerCore ai inv) ai inv.now t

/-- A sequence of invocations of the rotation, each at its own time.  The result is the
timers at the end and every cast issued, oldest first, with the time of its invocation. -/
def invokeAll (ai : PatchwerkAI) : List Invocation → Timers →
    Option (Timers × List (Int × SpellId))
  | [], t => some (t, [])
  | inv :: rest, t =>
    match invoke ai inv t with
    | none => none
    | some (t1, calls) =>
      match invokeAll ai rest t1 with
      | none => none
      | some (t2, log) => some (t2, (casts calls).map (fun c => (inv.now, c.1)) ++ log)

/-- The times at which `spell` was cast, oldest first. -/
def castTimes (spell : SpellId) (log : List (Int × SpellId)) : List Int :=
  (log.filter (fun c => c.2 = spell)).map (fun c => c.1)

/-! ## The aura state machine -/

/-- Modelled from the spec: the record package `core` keeps for one aura on its owner
(section 3: an aura is active or inactive and carries `expire_at`), together with the owner
whose pseudo stats the hooks mutate. -/
structure AuraState where
  active : Bool
  expireAt : Int
  owner : CombatUnit

/-- Modelled from the spec: `Aura.Activate` of package `core` is missing from the sources.
Following section 4.3 (Apply), it sets `expire_at = current_time + duration` (an `int64`
addition); an inactive aura becomes active and runs its on-gain hook, an active aura is
refreshed and its on-gain hook does not run again. -/
def Aura.Activate (aura : Aura) (now : Int) (st : AuraState) : AuraState :=
  if st.active then { st with expireAt := wrapInt64 (now + aura.Duration) }
  else
    { active := true
      expireAt := wrapInt64 (now + aura.Duration)
      owner := aura.OnGain st.owner }

/-- Modelled from the spec: the expiration of an aura is done by package `core`.  Following
sections 3 and 4.3 (Expire), when the clock reaches a time with `current_time >= expire_at`
an active aura runs its on-expire hook and becomes inactive; otherwise nothing changes. -/
def Aura.advance (aura : Aura) (now : Int) (st : AuraState) : AuraState :=
  if st.active && decide (st.expireAt ≤ now) then
    { active := false, expireAt := st.expireAt, owner := aura.OnExpire st.owner }
  else st

/-- The clock passing through the times `ts`, oldest first, with no other event. -/
def Aura.advanceAll (aura : Aura) (ts : List Int) (st : AuraState) : AuraState :=
  ts.foldl (fun s t => aura.advance t s) st

/-- The physical damage dealt multiplier of the owner. -/
def AuraState.physicalMultiplier (k : CoreConsts) (st : AuraState) : ℚ :=
  st.owner.PseudoStats.SchoolDamageDealtMultiplier k.SchoolIndexPhysical

/-! ## Seal of Martyrdom -/

/-- The paladin, restricted to what `registerSealOfMartyrdom` and
`triggerSealOfMartyrdomSelfDamage` read.  `weaponSpecializationModifier` and `improvedSoR`
are the values of the methods `getWeaponSpecializationModifier()` and `improvedSoR()`. -/
structure Paladin where
  SanctifiedDamageMultiplier : ℚ
  hasSealbearerBonus : Bool
  weaponSpecializationModifier : ℚ
  improvedSoR : ℚ

/-- Go `core.SpellResult`.  `Landed` and `RawDamage` are the values of the methods
`Landed()` and `RawDamage()`. -/
structure SpellResult where
  Target : UnitRef
  Landed : Bool
  RawDamage : ℚ
  Damage : ℚ
  deriving DecidableEq

/-- The outcome functions the seal passes to `CalcDamage`. -/
inductive OutcomeApplier where
  | OutcomeMeleeSpecialCritOnly
  | OutcomeMeleeSpecialHitAndCrit
  deriving DecidableEq

/-- The `OnAction` closures of the file, each with the variables it captures. -/
inductive DelayedAction where
  /-- The closure at lines 58 to 61: it captures `spell` (the proc spell) and `result`. -/
  | dealSealOfMartyrdomProc (spell : Spell) (result : SpellResult)
  deriving DecidableEq

/-- Go `core.DelayedActionOptions`. -/
structure DelayedActionOptions where
  DoAt : Int
  Priority : Int
  OnAction : DelayedAction
  deriving DecidableEq

/-- Modelled from the spec: `core.TernaryFloat64` is missing from the sources.  It is the
choice the comment at line 115 of `som.go` describes (the amount is adjusted only when the
Sealbearer item is equipped): the first value when the condition holds, the second
otherwise. -/
def TernaryFloat64 (condition : Bool) (val1 val2 : ℚ) : ℚ :=
  if condition then val1 else val2

/-- The on-hit proc spell registered by `registerSealOfMartyrdom` (`procSpell`). -/
def procSpell (k : CoreConsts) (paladin : Paladin) : Spell :=
  { SpellID := 407799
    ProcMask := k.ProcMaskMeleeMHSpecial
    Flags := k.SpellFlagMeleeMetrics ||| k.SpellFlagSuppressWeaponProcs
    CD := 0
    DamageMultiplier := 1 / 2 * paladin.weaponSpecializationModifier * paladin.improvedSoR }

/-- The functions of package `core` that the seal calls, as parameters over a state `σ` of
the simulation.  The metrics arguments of the source only feed the reports and are left
out. -/
structure PaladinCore (σ : Type) where
  /-- Go `spell.MeleeAttackPower()`. -/
  MeleeAttackPower : Spell → σ → ℚ
  /-- Go `spell.Unit.MHNormalizedWeaponDamage(sim, attackPower)`. -/
  MHNormalizedWeaponDamage : ℚ → σ → ℚ × σ
  /-- Go `spell.CalcDamage(sim, target, baseDamage, outcomeApplier)`. -/
  CalcDamage : Spell → UnitRef → ℚ → OutcomeApplier → σ → SpellResult × σ
  /-- Go `core.StartDelayedAction(sim, options)`. -/
  StartDelayedAction : DelayedActionOptions → σ → σ
  /-- Go `spell.DealDamage(sim, result)`. -/
  DealDamage : Spell → SpellResult → σ → σ
  /-- Go `paladin.RemoveHealth(sim, amount, metrics)`. -/
  RemoveHealth : ℚ → σ → σ
  /-- Go `paladin.AddMana(sim, amount, metrics)`. -/
  AddMana : ℚ → σ → σ
  /-- Go `spell.Cast(sim, target)`. -/
  Cast : Spell → UnitRef → σ → σ

/-- A call into package `core` issued by the seal, with the value it returned. -/
inductive PaladinCall where
  | MHNormalizedWeaponDamage (attackPower : ℚ) (damage : ℚ)
  | CalcDamage (spell : Spell) (target : UnitRef) (baseDamage : ℚ) (outcome : OutcomeApplier)
      (result : SpellResult)
  | StartDelayedAction (options : DelayedActionOptions)
  | DealDamage (spell : Spell) (result : SpellResult)
  | RemoveHealth (amount : ℚ)
  | AddMana (amount : ℚ)
  | Cast (spell : Spell) (target : UnitRef)
  deriving DecidableEq

/-- The state of the simulation together with the calls issued so far, oldest first. -/
structure PaladinRun (σ : Type) where
  sim : σ
  calls : List PaladinCall

/-- Go `Paladin.triggerSealOfMartyrdomSelfDamage`. -/
def triggerSealOfMartyrdomSelfDamage (core : PaladinCore σ) (k : CoreConsts) (paladin : Paladin)
    (result : SpellResult) (r : PaladinRun σ) : PaladinRun σ :=
  let selfDamage := result.RawDamage * (1 / 10)
  let r1 : PaladinRun σ :=
    { sim := core.RemoveHealth selfDamage r.sim
      calls := r.calls ++ [PaladinCall.RemoveHealth selfDamage] }
  let selfDamage := selfDamage / paladin.SanctifiedDamageMultiplier
  let selfDamage := selfDamage / TernaryFloat64 paladin.hasSealbearerBonus k.SealbearerDamageModifier 1
  { sim := core.AddMana (selfDamage * (65 / 100)) r1.sim
    calls := r1.calls ++ [PaladinCall.AddMana (selfDamage * (65 / 100))] }

/-- The `ApplyEffects` of the proc spell (lines 51 to 63), cast at `sim.CurrentTime = now`. -/
def procSpellApplyEffects (core : PaladinCore σ) (k : CoreConsts) (paladin : Paladin)
    (now : Int) (target : UnitRef) (r : PaladinRun σ) : PaladinRun σ :=
  let spell := procSpell k paladin
  let attackPower := core.MeleeAttackPower spell r.sim
  let weapon := core.MHNormalizedWeaponDamage attackPower r.sim
  let baseDamage := weapon.1
  let computed := core.CalcDamage spell target baseDamage .OutcomeMeleeSpecialHitAndCrit weapon.2
  let result := computed.1
  let options : DelayedActionOptions :=
    { DoAt := wrapInt64 (now + k.SpellBatchWindow)
      Priority := k.ActionPriorityLow
      OnAction := .dealSealOfMartyrdomProc spell result }
  { sim := core.StartDelayedAction options computed.2
    calls := r.calls ++
      [ PaladinCall.MHNormalizedWeaponDamage attackPower baseDamage,
        PaladinCall.CalcDamage spell target baseDamage .OutcomeMeleeSpecialHitAndCrit result,
        PaladinCall.StartDelayedAction options ] }

/-- Dispatch of a delayed action: the body of its `OnAction` closure, run in the state of
the simulation at the time of the dispatch. -/
def runDelayedAction (core : PaladinCore σ) (k : CoreConsts) (paladin : Paladin) :
    DelayedAction → PaladinRun σ → PaladinRun σ
  | .dealSealOfMartyrdomProc spell result, r =>
    let r1 : PaladinRun σ :=
      { sim := core.DealDamage spell result r.sim
        calls := r.calls ++ [PaladinCall.DealDamage spell result] }
    triggerSealOfMartyrdomSelfDamage core k paladin result r1

/-- The calls that change the health of a unit or the mana of the paladin. -/
def PaladinCall.changesResources : PaladinCall → Bool
  | .DealDamage _ _ => true
  | .RemoveHealth _ => true
  | .AddMana _ => true
  | _ => false

/-- The delayed actions scheduled among the calls, in order. -/
def scheduled : List PaladinCall → List DelayedActionOptions
  | [] => []
  | PaladinCall.StartDelayedAction options :: cs => options :: scheduled cs
  | _ :: cs => scheduled cs

/-! ## The timer of one spell across the statements of the rotation -/

/-- What one statement of the rotation does, on the timer model, to the timer of `spell`
while the run goes from `r` to `r1`: calls are appended; either `spell` is cast once, its
timer was ready and is restarted, or `spell` is not cast and its timer is left alone. -/
def StageSpec (ai : PatchwerkAI) (spell : SpellId) (u : UnitRef) (now : Int)
    (r r1 : Run Timers) : Prop :=
  ∃ new, r1.calls = r.calls ++ new ∧
    ((spellCasts spell new = [(spell, u)] ∧ r.sim spell ≤ now ∧
        r1.sim spell = wrapInt64 (now + (ai.spell spell).CD)) ∨
      (spellCasts spell new = [] ∧ r1.sim spell = r.sim spell))

/-! ## Concrete inputs -/

/-- An assignment of the constants that are declared outside the sources: the masks and
flags are distinct bits, the batch window is 10 ms. -/
def exampleConsts : CoreConsts :=
  { SchoolIndexPhysical := 0
    ProcMaskRanged := 48
    ProcMaskMeleeMHSpecial := 4
    ProcMaskMeleeWhiteHit := 3
    ProcMaskMeleeProc := 512
    SpellFlagMeleeMetrics := 1
    SpellFlagNoOnCastComplete := 2
    SpellFlagSuppressWeaponProcs := 4
    SpellFlagBatchStartAttackMacro := 8
    SpellFlagNotAProc := 16
    SpellFlagAPL := 32
    SpellFlag_RV := 64
    SpellBatchWindow := 10 * Millisecond
    ActionPriorityLow := -1
    SealbearerDamageModifier := 11 / 10 }

/-- A boss whose current target is unit 1, in a raid of one party with the single player 2. -/
def exampleTarget : Target :=
  { CurrentTarget := some 1
    Env := { Raid := { Parties := [{ Players := [2] }] } } }

/-- A boss without a current target in a raid whose first party has no player. -/
def exampleTargetEmptyParty : Target :=
  { CurrentTarget := none
    Env := { Raid := { Parties := [{ Players := [] }, { Players := [2] }] } } }

/-- The AI as `Initialize` leaves it for a hateful tank with the preset 70 percent. -/
def exampleAI (target : Target) : PatchwerkAI :=
  { authorityFrozenWastesStacks := 0
    Target := target
    isHatefulTank := true
    hatefulPercent := 7 / 10
    HatefulStrikePrimer := registerHatefulStrikePrimerSpell exampleConsts
    HatefulStrike := registerHatefulStrikeSpell exampleConsts
    Frenzy := registerFrenzySpell exampleConsts }

/-- A boss without a current target in an individual simulation: one party, one player. -/
def exampleTargetFallback : Target :=
  { CurrentTarget := none
    Env := { Raid := { Parties := [{ Players := [2] }] } } }

/-- The difficulty input of the preset, as a sample value. -/
def exampleDifficulty : TargetInput :=
  { Label := "Difficulty Level", InputType := .InputType_Enum,
    BoolValue := false, NumberValue := 0, EnumValue := 0 }

/-- The preset of `addPatchwerk` with the Hateful Tank switch turned on. -/
def exampleConfig : TargetConfig :=
  { patchwerkConfig exampleDifficulty with
    TargetInputs :=
      [ exampleDifficulty,
        { Label := "Hateful Tank", InputType := .InputType_Bool,
          BoolValue := true, NumberValue := 0, EnumValue := 0 },
        { Label := "Percent of Hatefuls Taken", InputType := .InputType_Number,
          BoolValue := false, NumberValue := 70, EnumValue := 0 } ] }

/-- A unit whose multipliers are all 1. -/
def exampleUnit : CombatUnit :=
  { PseudoStats := { SchoolDamageDealtMultiplier := fun _ => 1, MeleeSpeedMultiplier := 1 } }

/-- A unit whose physical damage dealt multiplier is the `float64` nearest to 0.92,
`8286623314361713 / 2 ^ 53`. -/
def exampleUnit092 : CombatUnit :=
  { PseudoStats :=
      { SchoolDamageDealtMultiplier := fun _ => 8286623314361713 / 9007199254740992
        MeleeSpeedMultiplier := 1 } }

/-- A paladin without Seal of the Dawn scaling and without the Sealbearer bonus. -/
def examplePaladin : Paladin :=
  { SanctifiedDamageMultiplier := 1
    hasSealbearerBonus := false
    weaponSpecializationModifier := 1
    improvedSoR := 1 }

/-- A landed hit on unit 1 with raw damage 200. -/
def exampleResult : SpellResult :=
  { Target := 1, Landed := true, RawDamage := 200, Damage := 150 }

/-- Resource pools and pending actions, the state of `poolCore`. -/
structure Pools where
  targetHealth : ℚ
  health : ℚ
  mana : ℚ
  pending : List DelayedActionOptions

/-- A sample instance of the functions of package `core`, used as a concrete input: fixed
attack power and weapon damage, every attack lands for the base damage times the multiplier
of the spell, damage and health are subtracted, mana is added, and delayed actions are
queued. -/
def poolCore : PaladinCore Pools :=
  { MeleeAttackPower := fun _ _ => 1400
    MHNormalizedWeaponDamage := fun attackPower s => (100 + attackPower / 14, s)
    CalcDamage := fun spell target baseDamage _ s =>
      ({ Target := target, Landed := true, RawDamage := baseDamage * spell.DamageMultiplier,
         Damage := baseDamage * spell.DamageMultiplier }, s)
    StartDelayedAction := fun options s => { s with pending := s.pending ++ [options] }
    DealDamage := fun _ result s => { s with targetHealth := s.targetHealth - result.Damage }
    RemoveHealth := fun amount s => { s with health := s.health - amount }
    AddMana := fun amount s => { s with mana := s.mana + amount }
    Cast := fun _ _ s => s }

/-- Full pools and no pending action. -/
def examplePools : Pools :=
  { targetHealth := 100000, health := 5000, mana := 3000, pending := [] }

/-- The timers at the start of an encounter: every spell is ready at time 0. -/
def freshTimers : Timers := fun _ => 0

/-! ## Theorems: initialisation -/

/-- C6: `Initialize` fails exactly when the configuration has fewer than three target inputs.
With three or more it succeeds, `isHatefulTank` is the `BoolValue` of input 1,
`hatefulPercent` is the `NumberValue` of input 2 divided by 100, the inputs after the third
do not change the result, and the preset of `addPatchwerk` (70) gives 7/10. -/
theorem Initialize_fails_iff_fewer_than_three_inputs (k : CoreConsts) (target : Target)
    (config : TargetConfig) :
    (Initialize k target config = none ↔ config.TargetInputs.length < 3) ∧
    (∀ (a b c : TargetInput) (rest : List TargetInput),
      Initialize k target { config with TargetInputs := a :: b :: c :: rest } =
        some
          { authorityFrozenWastesStacks := a.EnumValue
            Target := target
            isHatefulTank := b.BoolValue
            hatefulPercent := c.NumberValue / 100
            HatefulStrikePrimer := registerHatefulStrikePrimerSpell k
            HatefulStrike := registerHatefulStrikeSpell k
            Frenzy := registerFrenzySpell k } ∧
      Initialize k target { config with TargetInputs := a :: b :: c :: rest } =
        Initialize k target { config with TargetInputs := [a, b, c] }) ∧
    (∀ difficulty : TargetInput,
      (Initialize k target (patchwerkConfig difficulty)).map (fun ai => ai.hatefulPercent) =
        some (7 / 10)) := by
  refine ⟨?_, ?_, ?_⟩
  · rcases config with ⟨_, _, _, _, _, _, _, inputs⟩
    rcases inputs with _ | ⟨a, _ | ⟨b, _ | ⟨c, rest⟩⟩⟩ <;> simp [Initialize]
  · intro a b c rest
    simp [Initialize]
  · intro difficulty
    simp [Initialize, patchwerkConfig]
    norm_num

/-! ## Theorems: the Frenzy aura -/

/-- One gain and expire cycle of the Frenzy aura gives back the unit it started from. -/
theorem gainThenExpire_frenzy (k : CoreConsts) (u : CombatUnit) :
    gainThenExpire (frenzyAura k) u = u := by
  rcases u with ⟨⟨dmg, speed⟩⟩
  simp only [gainThenExpire, frenzyAura, frenzyOnGain, frenzyOnExpire, MultiplyMeleeSpeed]
  congr 2
  · funext i
    by_cases h : i = k.SchoolIndexPhysical
    · simp [h]
    · simp [h]
  · norm_num
    ring

/-- C3: on gain the Frenzy aura multiplies the physical damage dealt multiplier by 1.25 and
the melee speed multiplier by 1.4, and after any number `n` of gain and expire cycles both
multipliers have the values they had before the first gain. -/
theorem frenzy_cycles_restore_multipliers (k : CoreConsts) (u : CombatUnit) (n : Nat) :
    ((frenzyAura k).OnGain u).PseudoStats.SchoolDamageDealtMultiplier k.SchoolIndexPhysical =
      u.PseudoStats.SchoolDamageDealtMultiplier k.SchoolIndexPhysical * (5 / 4) ∧
    ((frenzyAura k).OnGain u).PseudoStats.MeleeSpeedMultiplier =
      u.PseudoStats.MeleeSpeedMultiplier * (7 / 5) ∧
    ((gainThenExpire (frenzyAura k))^[n] u).PseudoStats.SchoolDamageDealtMultiplier
        k.SchoolIndexPhysical =
      u.PseudoStats.SchoolDamageDealtMultiplier k.SchoolIndexPhysical ∧
    ((gainThenExpire (frenzyAura k))^[n] u).PseudoStats.MeleeSpeedMultiplier =
      u.PseudoStats.MeleeSpeedMultiplier := by
  have hfix : (gainThenExpire (frenzyAura k))^[n] u = u :=
    Function.iterate_fixed (gainThenExpire_frenzy k u) n
  refine ⟨?_, ?_, ?_, ?_⟩
  · simp [frenzyAura, frenzyOnGain, MultiplyMeleeSpeed]
  · simp [frenzyAura, frenzyOnGain, MultiplyMeleeSpeed]
  · rw [hfix]
  · rw [hfix]

/-- An inactive aura stays as it is while the clock advances. -/
theorem advanceAll_inactive (aura : Aura) (ts : List Int) (st : AuraState)
    (h : st.active = false) : aura.advanceAll ts st = st := by
  induction ts with
  | nil => rfl
  | cons x xs ih =>
    have hx : aura.advance x st = st := by simp [Aura.advance, h]
    simpa [Aura.advanceAll, hx] using ih

/-- An active aura stays as it is while the clock stays before `expire_at`. -/
theorem advanceAll_before_expiry (aura : Aura) (ts : List Int) (st : AuraState)
    (h : ∀ x ∈ ts, x < st.expireAt) : aura.advanceAll ts st = st := by
  induction ts with
  | nil => rfl
  | cons x xs ih =>
    have hlt : x < st.expireAt := h x (List.mem_cons_self x xs)
    have hx : aura.advance x st = st := by
      simp [Aura.advance, not_le.mpr hlt]
    have ih2 := ih (fun y hy => h y (List.mem_cons_of_mem x hy))
    simpa [Aura.advanceAll, hx] using ih2

/-- An active aura has expired once the clock has reached a time at or after `expire_at`. -/
theorem advanceAll_after_expiry (aura : Aura) (ts : List Int) (t : Int) (st : AuraState)
    (hact : st.active = true) (ht : st.expireAt ≤ t) :
    aura.advanceAll (ts ++ [t]) st =
      { active := false, expireAt := st.expireAt, owner := aura.OnExpire st.owner } := by
  induction ts with
  | nil => simp [Aura.advanceAll, Aura.advance, hact, ht]
  | cons x xs ih =>
    by_cases hx : st.expireAt ≤ x
    · have h1 : aura.advance x st =
          { active := false, expireAt := st.expireAt, owner := aura.OnExpire st.owner } := by
        simp [Aura.advance, hact, hx]
      have h2 := advanceAll_inactive aura (xs ++ [t])
        { active := false, expireAt := st.expireAt, owner := aura.OnExpire st.owner } rfl
      simpa [Aura.advanceAll, h1] using h2
    · have h1 : aura.advance x st = st := by simp [Aura.advance, hx]
      simpa [Aura.advanceAll, h1] using ih

/-- The `float64` result for a positive exact result `q` in the binade of `2 ^ e`. -/
theorem roundFloat64_of_binade (q : ℚ) (e : Int) (n : Int) (hq : 0 < q)
    (h1 : (2 : ℚ) ^ e ≤ q) (h2 : q < (2 : ℚ) ^ (e + 1))
    (hn : roundHalfEven (q / 2 ^ (e - 52)) = n) :
    roundFloat64 q = (n : ℚ) * 2 ^ (e - 52) := by
  have hlog : Int.log 2 |q| = e := by
    rw [abs_of_pos hq]
    apply le_antisymm
    · have := (Int.lt_zpow_iff_log_lt (b := 2) (by norm_num) hq (x := e + 1)).mp
        (by exact_mod_cast h2)
      omega
    · exact (Int.zpow_le_iff_le_log (b := 2) (by norm_num) hq).mp (by exact_mod_cast h1)
  unfold roundFloat64
  rw [if_neg (ne_of_gt hq), hlog, hn]

/-- Rounding up: the fraction is above one half. -/
theorem roundHalfEven_up (q : ℚ) (f : Int) (h1 : (f : ℚ) + 1 / 2 < q) (h2 : q < f + 1) :
    roundHalfEven q = f + 1 := by
  have hf : ⌊q⌋ = f := by
    rw [Int.floor_eq_iff]
    constructor <;> linarith
  unfold roundHalfEven
  rw [hf]
  rw [if_neg (by linarith), if_pos (by linarith)]

/-- C4, as stated, fails for the multiplier `m = 8286623314361713 / 2 ^ 53`, the `float64`
nearest to 0.92: the product `m * 1.25` rounds to `5179139571476071 / 2 ^ 52`, its quotient
by 1.25 rounds to `8286623314361714 / 2 ^ 53`, and that is what the multiplier reads at
300 s after the activation at 0, not `m`. -/
theorem frenzy_expiry_does_not_restore_092 :
    roundFloat64 (23 / 25) = 8286623314361713 / 9007199254740992 ∧
    exampleUnit092.PseudoStats.SchoolDamageDealtMultiplier exampleConsts.SchoolIndexPhysical =
      8286623314361713 / 9007199254740992 ∧
    ((frenzyAura64 exampleConsts).advanceAll [300 * Second]
        ((frenzyAura64 exampleConsts).Activate 0
          { active := false, expireAt := 0, owner := exampleUnit092 })).physicalMultiplier
        exampleConsts = 8286623314361714 / 9007199254740992 ∧
    ((frenzyAura64 exampleConsts).advanceAll [300 * Second]
        ((frenzyAura64 exampleConsts).Activate 0
          { active := false, expireAt := 0, owner := exampleUnit092 })).physicalMultiplier
        exampleConsts ≠
      exampleUnit092.PseudoStats.SchoolDamageDealtMultiplier exampleConsts.SchoolIndexPhysical := by
  have h0 : roundFloat64 (23 / 25) = 8286623314361713 / 9007199254740992 := by
    rw [roundFloat64_of_binade (23 / 25) (-1) 8286623314361713 (by norm_num) (by norm_num)
      (by norm_num) (roundHalfEven_up _ 8286623314361712 (by norm_num) (by norm_num))]
    norm_num
  have h1 : roundFloat64 (8286623314361713 / 9007199254740992 * (5 / 4)) =
      5179139571476071 / 4503599627370496 := by
    rw [roundFloat64_of_binade _ 0 5179139571476071 (by norm_num) (by norm_num)
      (by norm_num) (roundHalfEven_up _ 5179139571476070 (by norm_num) (by norm_num))]
    norm_num
  have h2 : roundFloat64 (5179139571476071 / 4503599627370496 / (5 / 4)) =
      8286623314361714 / 9007199254740992 := by
    rw [roundFloat64_of_binade _ (-1) 8286623314361714 (by norm_num) (by norm_num)
      (by norm_num) (roundHalfEven_up _ 8286623314361713 (by norm_num) (by norm_num))]
    norm_num
  have hact : (frenzyAura64 exampleConsts).Activate 0
      { active := false, expireAt := 0, owner := exampleUnit092 } =
      { active := true, expireAt := 300 * Second,
        owner := (frenzyAura64 exampleConsts).OnGain exampleUnit092 } := by
    simp [Aura.Activate, frenzyAura64, wrapInt64, Minute, Second, Millisecond]
  have hread : ((frenzyAura64 exampleConsts).advanceAll [300 * Second]
        ((frenzyAura64 exampleConsts).Activate 0
          { active := false, expireAt := 0, owner := exampleUnit092 })).physicalMultiplier
        exampleConsts = 8286623314361714 / 9007199254740992 := by
    rw [hact]
    have hexp := advanceAll_after_expiry (frenzyAura64 exampleConsts) [] (300 * Second)
      { active := true, expireAt := 300 * Second,
        owner := (frenzyAura64 exampleConsts).OnGain exampleUnit092 } rfl (le_refl _)
    simp only [List.nil_append] at hexp
    rw [hexp]
    simp only [AuraState.physicalMultiplier, frenzyAura64, frenzyOnGain64, frenzyOnExpire64,
      MultiplyMeleeSpeed64, exampleUnit092, if_true]
    rw [h1, h2]
  refine ⟨h0, rfl, hread, ?_⟩
  rw [hread]
  simp only [exampleUnit092]
  norm_num

/-- The Frenzy aura in exact arithmetic through time: `5/4 * m` before 300 s, `m` from 300 s
on. -/
theorem frenzy_timeline_exact (k : CoreConsts) (u : CombatUnit) (ts : List Int) (t : Int)
    (hmono : (ts ++ [t]).Pairwise (fun a b => a ≤ b)) :
    (t < 300 * Second →
      ((frenzyAura k).advanceAll (ts ++ [t])
        ((frenzyAura k).Activate 0 { active := false, expireAt := 0, owner := u })).physicalMultiplier k =
        5 / 4 * u.PseudoStats.SchoolDamageDealtMultiplier k.SchoolIndexPhysical) ∧
    (300 * Second ≤ t →
      ((frenzyAura k).advanceAll (ts ++ [t])
        ((frenzyAura k).Activate 0 { active := false, expireAt := 0, owner := u })).physicalMultiplier k =
        u.PseudoStats.SchoolDamageDealtMultiplier k.SchoolIndexPhysical) := by
  have hdur : (frenzyAura k).Duration = 300 * Second := by
    simp [frenzyAura, Minute]; ring
  have hact : (frenzyAura k).Activate 0 { active := false, expireAt := 0, owner := u } =
      { active := true, expireAt := 300 * Second, owner := (frenzyAura k).OnGain u } := by
    simp [Aura.Activate, hdur, wrapInt64, Second, Millisecond]
  refine ⟨?_, ?_⟩
  · intro hlt
    rw [hact]
    have hall : ∀ x ∈ ts ++ [t], x < 300 * Second := by
      intro x hx
      rcases List.mem_append.mp hx with hx1 | hx1
      · have := (List.pairwise_append.mp hmono).2.2 x hx1 t (by simp)
        exact lt_of_le_of_lt this hlt
      · simp at hx1; rw [hx1]; exact hlt
    rw [advanceAll_before_expiry _ _ _ hall]
    simp [AuraState.physicalMultiplier, frenzyAura, frenzyOnGain, MultiplyMeleeSpeed]
    ring
  · intro hge
    rw [hact, advanceAll_after_expiry _ _ _ _ rfl hge]
    have h := gainThenExpire_frenzy k u
    simp only [gainThenExpire] at h
    simp [AuraState.physicalMultiplier, h]

/-- C4, amended: the Frenzy aura is activated at time 0 on a unit whose physical damage
dealt multiplier is `m`, and afterwards only the clock advances, through the times `ts` and
then `t`, in non-decreasing order.  The aura expires at 0 plus its duration, 300 s.  In
`float64` arithmetic the multiplier reads the rounded product `m * 1.25` when
`0 <= t < 300 s`, and the rounded quotient of that product by 1.25 when `t >= 300 s`; in
exact rational arithmetic these are `1.25 * m` and `m`. -/
theorem frenzy_multiplier_timeline (k : CoreConsts) (u : CombatUnit) (ts : List Int) (t : Int)
    (hmono : (ts ++ [t]).Pairwise (fun a b => a ≤ b)) :
    ((frenzyAura64 k).Activate 0 { active := false, expireAt := 0, owner := u }).expireAt =
      0 + (frenzyAura64 k).Duration ∧
    (frenzyAura64 k).Duration = 300 * Second ∧
    (0 ≤ t → t < 300 * Second →
      ((frenzyAura64 k).advanceAll (ts ++ [t])
        ((frenzyAura64 k).Activate 0
          { active := false, expireAt := 0, owner := u })).physicalMultiplier k =
        roundFloat64 (u.PseudoStats.SchoolDamageDealtMultiplier k.SchoolIndexPhysical * (5 / 4))) ∧
    (300 * Second ≤ t →
      ((frenzyAura64 k).advanceAll (ts ++ [t])
        ((frenzyAura64 k).Activate 0
          { active := false, expireAt := 0, owner := u })).physicalMultiplier k =
        roundFloat64
          (roundFloat64 (u.PseudoStats.SchoolDamageDealtMultiplier k.SchoolIndexPhysical * (5 / 4)) /
            (5 / 4))) ∧
    (0 ≤ t → t < 300 * Second →
      ((frenzyAura k).advanceAll (ts ++ [t])
        ((frenzyAura k).Activate 0
          { active := false, expireAt := 0, owner := u })).physicalMultiplier k =
        5 / 4 * u.PseudoStats.SchoolDamageDealtMultiplier k.SchoolIndexPhysical) ∧
    (300 * Second ≤ t →
      ((frenzyAura k).advanceAll (ts ++ [t])
        ((frenzyAura k).Activate 0
          { active := false, expireAt := 0, owner := u })).physicalMultiplier k =
        u.PseudoStats.SchoolDamageDealtMultiplier k.SchoolIndexPhysical) := by
  have hdur : (frenzyAura64 k).Duration = 300 * Second := by
    simp [frenzyAura64, Minute]; ring
  have hact : (frenzyAura64 k).Activate 0 { active := false, expireAt := 0, owner := u } =
      { active := true, expireAt := 300 * Second, owner := (frenzyAura64 k).OnGain u } := by
    simp [Aura.Activate, hdur, wrapInt64, Second, Millisecond]
  obtain ⟨hex1, hex2⟩ := frenzy_timeline_exact k u ts t hmono
  refine ⟨?_, hdur, ?_, ?_, fun _ => hex1, hex2⟩
  · rw [hact, hdur]; simp
  · intro _ hlt
    rw [hact]
    have hall : ∀ x ∈ ts ++ [t], x < 300 * Second := by
      intro x hx
      rcases List.mem_append.mp hx with hx1 | hx1
      · have := (List.pairwise_append.mp hmono).2.2 x hx1 t (by simp)
        exact lt_of_le_of_lt this hlt
      · simp at hx1; rw [hx1]; exact hlt
    rw [advanceAll_before_expiry _ _ _ hall]
    simp [AuraState.physicalMultiplier, frenzyAura64, frenzyOnGain64, MultiplyMeleeSpeed64]
  · intro hge
    rw [hact, advanceAll_after_expiry _ _ _ _ rfl hge]
    simp [AuraState.physicalMultiplier, frenzyAura64, frenzyOnGain64, frenzyOnExpire64,
      MultiplyMeleeSpeed64]

/-- The amended C4 with the clock passing 0, 100 s and 299 s: from the `float64` nearest to
0.92 the multiplier reads `5179139571476071 / 2 ^ 52` at 299.999 s; from 1 in exact
arithmetic it reads 5/4 at 299.999 s and 1 at 300 s. -/
theorem frenzy_multiplier_timeline_witness :
    ((frenzyAura64 exampleConsts).advanceAll
        ([0, 100 * Second, 299 * Second] ++ [299999 * Millisecond])
        ((frenzyAura64 exampleConsts).Activate 0
          { active := false, expireAt := 0, owner := exampleUnit092 })).physicalMultiplier
        exampleConsts =
      roundFloat64 (8286623314361713 / 9007199254740992 * (5 / 4)) ∧
    ((frenzyAura exampleConsts).advanceAll
        ([0, 100 * Second, 299 * Second] ++ [299999 * Millisecond])
        ((frenzyAura exampleConsts).Activate 0
          { active := false, expireAt := 0, owner := exampleUnit })).physicalMultiplier
        exampleConsts = 5 / 4 * 1 ∧
    ((frenzyAura exampleConsts).advanceAll ([0, 100 * Second, 299 * Second] ++ [300 * Second])
        ((frenzyAura exampleConsts).Activate 0
          { active := false, expireAt := 0, owner := exampleUnit })).physicalMultiplier
        exampleConsts = 1 :=
  ⟨(frenzy_multiplier_timeline exampleConsts exampleUnit092 [0, 100 * Second, 299 * Second]
      (299999 * Millisecond) (by decide)).2.2.1 (by decide) (by decide),
    (frenzy_multiplier_timeline exampleConsts exampleUnit [0, 100 * Second, 299 * Second]
      (299999 * Millisecond) (by decide)).2.2.2.2.1 (by decide) (by decide),
    (frenzy_multiplier_timeline exampleConsts exampleUnit [0, 100 * Second, 299 * Second]
      (300 * Second) (by decide)).2.2.2.2.2 (by decide)⟩

/-! ## Theorems: the rotation -/

/-- An `int64` addition whose exact result is representable does not wrap. -/
theorem wrapInt64_of_fits (x : Int) (h : fitsInt64 x) : wrapInt64 x = x := by
  unfold fitsInt64 MinInt64 MaxInt64 at h
  unfold wrapInt64
  omega

/-- C1, as stated, fails at the start of an encounter (time 0, every timer ready, the full
duration remaining) for a hateful tank: when the proc roll succeeds the invocation casts
Hateful Strike Primer and Hateful Strike, and when the roll fails the invocation casts
Hateful Strike Primer and also schedules a wait. -/
theorem rotation_issues_two_casts_or_cast_and_wait :
    (ExecuteCustomRotation
        (timerCore (exampleAI exampleTarget)
          { now := 0, remainingDurationPercent := 1, randomFloat := 1 / 2 })
        (exampleAI exampleTarget) 0 freshTimers).map (fun r => (casts r.2, waits r.2)) =
      some ([(SpellId.HatefulStrikePrimer, 1), (SpellId.HatefulStrike, 1)], []) ∧
    (ExecuteCustomRotation
        (timerCore (exampleAI exampleTarget)
          { now := 0, remainingDurationPercent := 1, randomFloat := 9 / 10 })
        (exampleAI exampleTarget) 0 freshTimers).map (fun r => (casts r.2, waits r.2)) =
      some ([(SpellId.HatefulStrikePrimer, 1)], [1200000000]) := by
  constructor <;>
  · simp [ExecuteCustomRotation, resolveTarget, exampleAI, exampleTarget, rotationBody,
      castPrimerIfReady, castFrenzyIfReady, hatefulStrikeOrWait,
      Run.isReady, Run.cast, Run.remaining, Run.cancelAutoSwing, Run.proc, Run.waitUntil,
      timerCore, PatchwerkAI.spell, wrapInt64,
      registerHatefulStrikePrimerSpell, registerHatefulStrikeSpell, Millisecond]
    norm_num [Timers.set, freshTimers, casts, waits]

/-- C1, amended: one invocation casts each of Hateful Strike Primer, Frenzy and Hateful
Strike at most once, in this order and at the resolved target (so at most three casts),
schedules at most one wait, and never both casts Hateful Strike and schedules a wait. -/
theorem rotation_casts_each_spell_at_most_once {σ : Type} (core : Core σ) (ai : PatchwerkAI)
    (now : Int) (s : σ) (target : UnitRef) (h : resolveTarget ai.Target = some target) :
    ∃ s1 calls, ExecuteCustomRotation core ai now s = some (s1, calls) ∧
      (casts calls).Sublist
        [(SpellId.HatefulStrikePrimer, target), (SpellId.Frenzy, target),
          (SpellId.HatefulStrike, target)] ∧
      (waits calls).length ≤ 1 ∧
      (castCount .HatefulStrike calls = 0 ∨ waits calls = []) := by
  simp only [ExecuteCustomRotation, h, rotationBody, castPrimerIfReady, castFrenzyIfReady,
    hatefulStrikeOrWait, Run.isReady, Run.cast, Run.remaining, Run.cancelAutoSwing, Run.proc,
    Run.waitUntil]
  refine ⟨_, _, rfl, ?_⟩
  split_ifs <;> simp [casts, waits, castCount, spellCasts]

/-- The amended C1 at the start of an encounter for a hateful tank. -/
theorem rotation_casts_each_spell_at_most_once_witness :
    ∃ s1 calls,
      ExecuteCustomRotation
        (timerCore (exampleAI exampleTarget)
          { now := 0, remainingDurationPercent := 1, randomFloat := 1 / 2 })
        (exampleAI exampleTarget) 0 freshTimers = some (s1, calls) ∧
      (casts calls).Sublist
        [(SpellId.HatefulStrikePrimer, 1), (SpellId.Frenzy, 1), (SpellId.HatefulStrike, 1)] ∧
      (waits calls).length ≤ 1 ∧
      (castCount .HatefulStrike calls = 0 ∨ waits calls = []) :=
  rotation_casts_each_spell_at_most_once _ (exampleAI exampleTarget) 0 freshTimers 1 rfl

/-- C5, as stated, fails when the boss has no current target and the first party of the raid
has no player: indexing `Players[0]` panics. -/
theorem rotation_fails_without_first_player :
    ExecuteCustomRotation
      (timerCore (exampleAI exampleTargetEmptyParty)
        { now := 0, remainingDurationPercent := 1, randomFloat := 1 / 2 })
      (exampleAI exampleTargetEmptyParty) 0 freshTimers = none := by
  rfl

/-- C5, amended: when the current target is nil and the first party of the raid has a first
player, the invocation does not fail and every cast it issues is aimed at the unit of that
player; when the current target is present the invocation does not fail and every cast is
aimed at the current target. -/
theorem rotation_target_fallback {σ : Type} (core : Core σ) (ai : PatchwerkAI) (now : Int)
    (s : σ) :
    (∀ (party : Party) (parties : List Party) (u : UnitRef) (players : List UnitRef),
      ai.Target.CurrentTarget = none →
      ai.Target.Env.Raid.Parties = party :: parties →
      party.Players = u :: players →
      ∃ s1 calls, ExecuteCustomRotation core ai now s = some (s1, calls) ∧
        ∀ c ∈ casts calls, c.2 = u) ∧
    (∀ u : UnitRef, ai.Target.CurrentTarget = some u →
      ∃ s1 calls, ExecuteCustomRotation core ai now s = some (s1, calls) ∧
        ∀ c ∈ casts calls, c.2 = u) := by
  have key : ∀ target, resolveTarget ai.Target = some target →
      ∃ s1 calls, ExecuteCustomRotation core ai now s = some (s1, calls) ∧
        ∀ c ∈ casts calls, c.2 = target := by
    intro target h
    simp only [ExecuteCustomRotation, h, rotationBody, castPrimerIfReady, castFrenzyIfReady,
      hatefulStrikeOrWait, Run.isReady, Run.cast, Run.remaining, Run.cancelAutoSwing,
      Run.proc, Run.waitUntil]
    refine ⟨_, _, rfl, ?_⟩
    split_ifs <;> simp [casts]
  constructor
  · intro party parties u players h1 h2 h3
    exact key u (by simp [resolveTarget, h1, h2, h3])
  · intro u h1
    exact key u (by simp [resolveTarget, h1])

/-- The amended C5 in an individual simulation without a tank: the casts go to player 2. -/
theorem rotation_target_fallback_witness :
    ∃ s1 calls,
      ExecuteCustomRotation
        (timerCore (exampleAI exampleTargetFallback)
          { now := 0, remainingDurationPercent := 1, randomFloat := 1 / 2 })
        (exampleAI exampleTargetFallback) 0 freshTimers = some (s1, calls) ∧
      ∀ c ∈ casts calls, c.2 = 2 :=
  (rotation_target_fallback _ (exampleAI exampleTargetFallback) 0 freshTimers).1
    { Players := [2] } [] 2 [] rfl rfl rfl

/-- The casts among two lists of calls. -/
theorem casts_append (a b : List Call) : casts (a ++ b) = casts a ++ casts b := by
  induction a with
  | nil => rfl
  | cons c cs ih => cases c <;> simp [casts, ih]

/-- The casts of one spell among two lists of calls. -/
theorem spellCasts_append (spell : SpellId) (a b : List Call) :
    spellCasts spell (a ++ b) = spellCasts spell a ++ spellCasts spell b := by
  simp [spellCasts, casts_append]

/-- The first statement of the rotation on the timer model. -/
theorem castPrimerIfReady_spec (ai : PatchwerkAI) (inv : Invocation) (spell : SpellId)
    (u : UnitRef) (now : Int) (r : Run Timers) :
    StageSpec ai spell u now r (castPrimerIfReady (timerCore ai inv) u now r) := by
  unfold StageSpec castPrimerIfReady
  simp only [Run.isReady, Run.cast, timerCore]
  split_ifs with h1 h2
  · refine ⟨_, List.append_assoc _ _ _, ?_⟩
    cases spell <;> simp_all [spellCasts, casts, Timers.set]
  · simp_all
  · exact ⟨_, rfl, Or.inr (by simp [spellCasts, casts])⟩

/-- The second statement of the rotation on the timer model. -/
theorem castFrenzyIfReady_spec (ai : PatchwerkAI) (inv : Invocation) (spell : SpellId)
    (u : UnitRef) (now : Int) (r : Run Timers) :
    StageSpec ai spell u now r (castFrenzyIfReady (timerCore ai inv) u now r) := by
  unfold StageSpec castFrenzyIfReady
  simp only [Run.isReady, Run.cast, Run.remaining, timerCore]
  split_ifs with h1 h2 h3
  · refine ⟨_, (by simp only [List.append_assoc]; rfl), ?_⟩
    cases spell <;> simp_all [spellCasts, casts, Timers.set]
  · simp_all
  · exact ⟨_, (by simp only [List.append_assoc]; rfl), Or.inr (by simp [spellCasts, casts])⟩
  · exact ⟨_, rfl, Or.inr (by simp [spellCasts, casts])⟩

/-- The third statement of the rotation on the timer model. -/
theorem hatefulStrikeOrWait_spec (ai : PatchwerkAI) (inv : Invocation) (spell : SpellId)
    (u : UnitRef) (now : Int) (r : Run Timers) :
    StageSpec ai spell u now r (hatefulStrikeOrWait (timerCore ai inv) ai u now r) := by
  unfold StageSpec hatefulStrikeOrWait
  simp only [Run.isReady, Run.cast, Run.cancelAutoSwing, Run.proc, Run.waitUntil, timerCore]
  split_ifs with h1 h2 h3 h4
  · refine ⟨_, (by simp only [List.append_assoc]; rfl), ?_⟩
    cases spell <;> simp_all [spellCasts, casts, Timers.set]
  · simp_all
  · exact ⟨_, (by simp only [List.append_assoc]; rfl), Or.inr (by simp [spellCasts, casts])⟩
  · exact ⟨_, (by simp only [List.append_assoc]; rfl), Or.inr (by simp [spellCasts, casts])⟩
  · exact ⟨[], by simp, Or.inr (by simp [spellCasts, casts])⟩

/-- Two statements in sequence: a spell with a positive cooldown is not cast by both, since
the first cast makes its timer not ready. -/
theorem StageSpec.trans (ai : PatchwerkAI) (spell : SpellId) (u : UnitRef) (now : Int)
    (r r1 r2 : Run Timers) (hcd : 0 ≤ (ai.spell spell).CD)
    (hfit : fitsInt64 (now + (ai.spell spell).CD))
    (h1 : StageSpec ai spell u now r r1) (h2 : StageSpec ai spell u now r1 r2) :
    StageSpec ai spell u now r r2 ∨ (ai.spell spell).CD = 0 := by
  obtain ⟨n1, hc1, h1⟩ := h1
  obtain ⟨n2, hc2, h2⟩ := h2
  have hw := wrapInt64_of_fits _ hfit
  rcases h1 with ⟨a1, b1, c1⟩ | ⟨a1, c1⟩ <;> rcases h2 with ⟨a2, b2, c2⟩ | ⟨a2, c2⟩
  · right
    rw [c1, hw] at b2
    omega
  · left
    exact ⟨n1 ++ n2, by rw [hc2, hc1, List.append_assoc],
      Or.inl ⟨by rw [spellCasts_append, a1, a2]; rfl, b1, by rw [c2, c1]⟩⟩
  · left
    exact ⟨n1 ++ n2, by rw [hc2, hc1, List.append_assoc],
      Or.inl ⟨by rw [spellCasts_append, a1, a2]; rfl, by rw [← c1]; exact b2, c2⟩⟩
  · left
    exact ⟨n1 ++ n2, by rw [hc2, hc1, List.append_assoc],
      Or.inr ⟨by rw [spellCasts_append, a1, a2]; rfl, by rw [c2, c1]⟩⟩

/-- The spells of an initialised AI are the registered ones. -/
theorem Initialize_spells (k : CoreConsts) (target : Target) (config : TargetConfig)
    (ai : PatchwerkAI) (h : Initialize k target config = some ai) :
    ai.HatefulStrikePrimer = registerHatefulStrikePrimerSpell k ∧
    ai.HatefulStrike = registerHatefulStrikeSpell k ∧
    ai.Frenzy = registerFrenzySpell k := by
  unfold Initialize at h
  split at h
  · simp at h
  · split at h
    · simp at h
    · split at h
      · simp at h
      · simp at h
        subst h
        simp

/-- Hateful Strike and its primer are registered with a cooldown of 1200 ms. -/
theorem Initialize_cooldown (k : CoreConsts) (target : Target) (config : TargetConfig)
    (ai : PatchwerkAI) (h : Initialize k target config = some ai) (spell : SpellId)
    (hs : spell = .HatefulStrike ∨ spell = .HatefulStrikePrimer) :
    (ai.spell spell).CD = 1200 * Millisecond := by
  obtain ⟨h1, h2, _⟩ := Initialize_spells k target config ai h
  rcases hs with rfl | rfl
  · simp [PatchwerkAI.spell, h2, registerHatefulStrikeSpell, mul_comm]
  · simp [PatchwerkAI.spell, h1, registerHatefulStrikePrimerSpell, mul_comm]

/-- One invocation on the timer model, seen from a spell whose cooldown is 1200 ms: either
the spell is cast once, at a time at which its timer was ready, and the timer restarts, or
the spell is not cast and its timer is unchanged. -/
theorem invoke_spec (ai : PatchwerkAI) (inv : Invocation) (t : Timers) (u : UnitRef)
    (spell : SpellId) (hcd : (ai.spell spell).CD = 1200 * Millisecond)
    (hu : resolveTarget ai.Target = some u)
    (hfit : fitsInt64 (inv.now + 1200 * Millisecond)) :
    ∃ t1 calls, invoke ai inv t = some (t1, calls) ∧
      ((spellCasts spell calls = [(spell, u)] ∧ t spell ≤ inv.now ∧
          t1 spell = inv.now + 1200 * Millisecond) ∨
        (spellCasts spell calls = [] ∧ t1 spell = t spell)) := by
  have hpos : 0 ≤ (ai.spell spell).CD := by rw [hcd]; simp [Millisecond]
  have hne : (ai.spell spell).CD ≠ 0 := by rw [hcd]; simp [Millisecond]
  have hfit1 : fitsInt64 (inv.now + (ai.spell spell).CD) := by rw [hcd]; exact hfit
  have s1 := castPrimerIfReady_spec ai inv spell u inv.now { sim := t, calls := [] }
  have s2 := castFrenzyIfReady_spec ai inv spell u inv.now
    (castPrimerIfReady (timerCore ai inv) u inv.now { sim := t, calls := [] })
  have s3 := hatefulStrikeOrWait_spec ai inv spell u inv.now
    (castFrenzyIfReady (timerCore ai inv) u inv.now
      (castPrimerIfReady (timerCore ai inv) u inv.now { sim := t, calls := [] }))
  have s12 := (StageSpec.trans ai spell u inv.now _ _ _ hpos hfit1 s1 s2).resolve_right hne
  have s123 := (StageSpec.trans ai spell u inv.now _ _ _ hpos hfit1 s12 s3).resolve_right hne
  obtain ⟨new, hcalls, hspec⟩ := s123
  have hres : invoke ai inv t = some
      ((rotationBody (timerCore ai inv) ai u inv.now { sim := t, calls := [] }).sim,
        (rotationBody (timerCore ai inv) ai u inv.now { sim := t, calls := [] }).calls) := by
    simp only [invoke, ExecuteCustomRotation, hu]
  refine ⟨_, _, hres, ?_⟩
  simp only [List.nil_append] at hcalls
  simp only [rotationBody]
  rw [hcalls]
  rw [hcd, wrapInt64_of_fits _ hfit] at hspec
  exact hspec

/-- The cast times of one spell in two logs. -/
theorem castTimes_append (spell : SpellId) (a b : List (Int × SpellId)) :
    castTimes spell (a ++ b) = castTimes spell a ++ castTimes spell b := by
  simp [castTimes]

/-- The cast times of one spell in the log of one invocation. -/
theorem castTimes_of_calls (spell : SpellId) (now : Int) (calls : List Call) :
    castTimes spell ((casts calls).map (fun c => (now, c.1))) =
      (spellCasts spell calls).map (fun _ => now) := by
  unfold castTimes spellCasts
  induction casts calls with
  | nil => rfl
  | cons c cs ih =>
    by_cases h : c.1 = spell
    · simp [List.filter_cons, h] at ih ⊢
      exact ih
    · simp [List.filter_cons, h] at ih ⊢
      exact ih

/-- Any sequence of invocations on the timer model: the casts of a spell with a cooldown of
1200 ms are at least 1200 ms apart, none of them is earlier than the timer at the start, and
the timer does not move back. -/
theorem invokeAll_spec (ai : PatchwerkAI) (u : UnitRef) (spell : SpellId)
    (hcd : (ai.spell spell).CD = 1200 * Millisecond)
    (hu : resolveTarget ai.Target = some u) (invs : List Invocation) :
    ∀ t0 : Timers, (∀ inv ∈ invs, fitsInt64 (inv.now + 1200 * Millisecond)) →
    ∃ t1 log, invokeAll ai invs t0 = some (t1, log) ∧
      (castTimes spell log).Pairwise (fun a b => a + 1200 * Millisecond ≤ b) ∧
      (∀ a ∈ castTimes spell log, t0 spell ≤ a) ∧ t0 spell ≤ t1 spell := by
  induction invs with
  | nil =>
    intro t0 _
    exact ⟨t0, [], rfl, by simp [castTimes], by simp [castTimes], le_refl _⟩
  | cons inv rest ih =>
    intro t0 hfit
    obtain ⟨t1, calls, hinv, hstep⟩ :=
      invoke_spec ai inv t0 u spell hcd hu (hfit inv (List.mem_cons_self _ _))
    obtain ⟨t2, log, hrest, hpair, hlow, hmono⟩ :=
      ih t1 (fun i hi => hfit i (List.mem_cons_of_mem _ hi))
    have hres : invokeAll ai (inv :: rest) t0 =
        some (t2, (casts calls).map (fun c => (inv.now, c.1)) ++ log) := by
      simp only [invokeAll, hinv, hrest]
    refine ⟨t2, _, hres, ?_⟩
    rw [castTimes_append, castTimes_of_calls]
    have h1200 : (0 : Int) ≤ 1200 * Millisecond := by simp [Millisecond]
    rcases hstep with ⟨hc, hready, htimer⟩ | ⟨hc, htimer⟩
    · rw [hc]
      simp only [List.map_cons, List.map_nil, List.singleton_append, List.pairwise_cons,
        List.mem_cons, forall_eq_or_imp]
      refine ⟨⟨?_, hpair⟩, ⟨hready, ?_⟩, ?_⟩
      · intro a ha
        have := hlow a ha
        omega
      · intro a ha
        have := hlow a ha
        omega
      · omega
    · rw [hc]
      simp only [List.map_nil, List.nil_append]
      refine ⟨hpair, ?_, ?_⟩
      · intro a ha
        have := hlow a ha
        omega
      · omega

/-- C2: on the timer model (a timer is ready iff `ready_at <= time`, a cast starts it with
the cooldown of the spell), for an initialised AI whose target resolves: in every sequence
of invocations whose times plus 1200 ms are representable, in whatever order the times come,
any two casts of Hateful Strike are at least 1200 ms apart, and so are any two casts of
Hateful Strike Primer.  After a cast of either spell at time 0 its timer is at 1200 ms, an
invocation at 1199 ms does not cast it and leaves the timer at 1200 ms, and at 1200 ms the
spell is ready. -/
theorem hateful_strike_cooldown_gap (k : CoreConsts) (target : Target) (config : TargetConfig)
    (ai : PatchwerkAI) (hinit : Initialize k target config = some ai) (u : UnitRef)
    (hu : resolveTarget ai.Target = some u) :
    (∀ (invs : List Invocation) (t0 : Timers),
      (∀ inv ∈ invs, fitsInt64 (inv.now + 1200 * Millisecond)) →
      ∃ t1 log, invokeAll ai invs t0 = some (t1, log) ∧
        (castTimes .HatefulStrike log).Pairwise (fun a b => a + 1200 * Millisecond ≤ b) ∧
        (castTimes .HatefulStrikePrimer log).Pairwise
          (fun a b => a + 1200 * Millisecond ≤ b)) ∧
    (∀ spell : SpellId, spell = .HatefulStrike ∨ spell = .HatefulStrikePrimer →
      ∀ (inv : Invocation) (t0 : Timers), t0 spell ≤ 0 →
        (timerCore ai inv).Cast spell u 0 t0 spell = 1200 * Millisecond ∧
        (∃ t1 calls,
          invoke ai { inv with now := 1199 * Millisecond }
            ((timerCore ai inv).Cast spell u 0 t0) = some (t1, calls) ∧
          castCount spell calls = 0 ∧ t1 spell = 1200 * Millisecond) ∧
        (timerCore ai inv).IsReady spell (1199 * Millisecond)
          ((timerCore ai inv).Cast spell u 0 t0) = false ∧
        (timerCore ai inv).IsReady spell (1200 * Millisecond)
          ((timerCore ai inv).Cast spell u 0 t0) = true) := by
  constructor
  · intro invs t0 hfit
    obtain ⟨t1, log, hrun, hpair, _, _⟩ :=
      invokeAll_spec ai u .HatefulStrike
        (Initialize_cooldown k target config ai hinit _ (Or.inl rfl)) hu invs t0 hfit
    obtain ⟨t2, log2, hrun2, hpair2, _, _⟩ :=
      invokeAll_spec ai u .HatefulStrikePrimer
        (Initialize_cooldown k target config ai hinit _ (Or.inr rfl)) hu invs t0 hfit
    rw [hrun] at hrun2
    simp only [Option.some.injEq, Prod.mk.injEq] at hrun2
    obtain ⟨_, hlog⟩ := hrun2
    subst hlog
    exact ⟨t1, log, hrun, hpair, hpair2⟩
  · intro spell hs inv t0 h0
    have hcd := Initialize_cooldown k target config ai hinit spell hs
    have hcast : (timerCore ai inv).Cast spell u 0 t0 spell = 1200 * Millisecond := by
      simp [timerCore, h0, Timers.set, hcd, wrapInt64, Millisecond]
    refine ⟨hcast, ?_, ?_, ?_⟩
    · obtain ⟨t1, calls, hrun, hstep⟩ :=
        invoke_spec ai { inv with now := 1199 * Millisecond }
          ((timerCore ai inv).Cast spell u 0 t0) u spell hcd hu
          (by show fitsInt64 (1199 * Millisecond + 1200 * Millisecond); decide)
      refine ⟨t1, calls, hrun, ?_⟩
      rcases hstep with ⟨_, hready, _⟩ | ⟨hc, ht⟩
      · exfalso
        rw [hcast] at hready
        simp [Millisecond] at hready
      · exact ⟨by simp [castCount, hc], by rw [ht, hcast]⟩
    · have hready : (timerCore ai inv).IsReady spell (1199 * Millisecond)
          ((timerCore ai inv).Cast spell u 0 t0) =
          decide ((timerCore ai inv).Cast spell u 0 t0 spell ≤ 1199 * Millisecond) := rfl
      rw [hready, hcast]
      decide
    · have hready : (timerCore ai inv).IsReady spell (1200 * Millisecond)
          ((timerCore ai inv).Cast spell u 0 t0) =
          decide ((timerCore ai inv).Cast spell u 0 t0 spell ≤ 1200 * Millisecond) := rfl
      rw [hready, hcast]
      decide

/-- C2 for the preset with the Hateful Tank switch on: invocations at 0, 1199 ms and
1200 ms from fresh timers. -/
theorem hateful_strike_cooldown_gap_witness :
    Initialize exampleConsts exampleTarget exampleConfig = some (exampleAI exampleTarget) ∧
    ∃ t1 log,
      invokeAll (exampleAI exampleTarget)
        [ { now := 0, remainingDurationPercent := 1, randomFloat := 1 / 2 },
          { now := 1199 * Millisecond, remainingDurationPercent := 1, randomFloat := 1 / 2 },
          { now := 1200 * Millisecond, remainingDurationPercent := 1, randomFloat := 1 / 2 } ]
        freshTimers = some (t1, log) ∧
      (castTimes .HatefulStrike log).Pairwise (fun a b => a + 1200 * Millisecond ≤ b) ∧
      (castTimes .HatefulStrikePrimer log).Pairwise (fun a b => a + 1200 * Millisecond ≤ b) :=
  have hinit : Initialize exampleConsts exampleTarget exampleConfig =
      some (exampleAI exampleTarget) := by
    simp [Initialize, exampleConfig, exampleAI, patchwerkConfig, exampleDifficulty]
    norm_num
  ⟨hinit,
    (hateful_strike_cooldown_gap exampleConsts exampleTarget exampleConfig
      (exampleAI exampleTarget) hinit 1 rfl).1 _ freshTimers (by decide)⟩

/-! ## Theorems: Seal of Martyrdom -/

/-- C7: for a result with raw damage `r`, `triggerSealOfMartyrdomSelfDamage` calls
`RemoveHealth` with `0.1 * r` and then `AddMana` with
`0.65 * (0.1 * r) / SanctifiedDamageMultiplier / k`, where `k` is `SealbearerDamageModifier`
with the Sealbearer bonus and 1 without it, and makes no other call; with
`SanctifiedDamageMultiplier = 1` and no bonus the mana is 65 percent of the health.  Amounts
are exact rationals; the two divisors are not zero. -/
theorem seal_of_martyrdom_self_damage {σ : Type} (core : PaladinCore σ) (k : CoreConsts)
    (paladin : Paladin) (result : SpellResult) (s : σ)
    (hS : paladin.SanctifiedDamageMultiplier ≠ 0) (hK : k.SealbearerDamageModifier ≠ 0) :
    (triggerSealOfMartyrdomSelfDamage core k paladin result { sim := s, calls := [] }).calls =
      [ PaladinCall.RemoveHealth (1 / 10 * result.RawDamage),
        PaladinCall.AddMana
          (65 / 100 * (1 / 10 * result.RawDamage) / paladin.SanctifiedDamageMultiplier /
            (if paladin.hasSealbearerBonus then k.SealbearerDamageModifier else 1)) ] ∧
    (triggerSealOfMartyrdomSelfDamage core k paladin result { sim := s, calls := [] }).sim =
      core.AddMana
        (65 / 100 * (1 / 10 * result.RawDamage) / paladin.SanctifiedDamageMultiplier /
          (if paladin.hasSealbearerBonus then k.SealbearerDamageModifier else 1))
        (core.RemoveHealth (1 / 10 * result.RawDamage) s) ∧
    (paladin.SanctifiedDamageMultiplier = 1 → paladin.hasSealbearerBonus = false →
      (triggerSealOfMartyrdomSelfDamage core k paladin result { sim := s, calls := [] }).calls =
        [ PaladinCall.RemoveHealth (1 / 10 * result.RawDamage),
          PaladinCall.AddMana (65 / 100 * (1 / 10 * result.RawDamage)) ]) := by
  have hk : (if paladin.hasSealbearerBonus then k.SealbearerDamageModifier else 1) ≠ 0 := by
    split_ifs
    · exact hK
    · exact one_ne_zero
  have key : ∀ d : ℚ, d ≠ 0 →
      1 / 10 * result.RawDamage / paladin.SanctifiedDamageMultiplier / d * (65 / 100) =
        65 / 100 * (1 / 10 * result.RawDamage) / paladin.SanctifiedDamageMultiplier / d := by
    intro d hd
    field_simp
    ring
  have e1 : result.RawDamage * (1 / 10) = 1 / 10 * result.RawDamage := by ring
  refine ⟨?_, ?_, ?_⟩
  · simp only [triggerSealOfMartyrdomSelfDamage, TernaryFloat64, e1, key _ hk, List.nil_append,
      List.cons_append]
  · simp only [triggerSealOfMartyrdomSelfDamage, TernaryFloat64, e1, key _ hk]
  · intro h1 h2
    simp only [triggerSealOfMartyrdomSelfDamage, TernaryFloat64, h1, h2, List.nil_append,
      List.cons_append, e1]
    simp
    ring

/-- C7 for a raw damage of 200 without Seal of the Dawn scaling and without the bonus: 20
health removed, 13 mana added. -/
theorem seal_of_martyrdom_self_damage_witness :
    examplePaladin.SanctifiedDamageMultiplier ≠ 0 ∧
    exampleConsts.SealbearerDamageModifier ≠ 0 ∧
    (triggerSealOfMartyrdomSelfDamage poolCore exampleConsts examplePaladin exampleResult
        { sim := examplePools, calls := [] }).calls =
      [ PaladinCall.RemoveHealth (1 / 10 * exampleResult.RawDamage),
        PaladinCall.AddMana (65 / 100 * (1 / 10 * exampleResult.RawDamage)) ] :=
  have hS : examplePaladin.SanctifiedDamageMultiplier ≠ 0 := by simp [examplePaladin]
  have hK : exampleConsts.SealbearerDamageModifier ≠ 0 := by simp [exampleConsts]
  ⟨hS, hK,
    (seal_of_martyrdom_self_damage poolCore exampleConsts examplePaladin exampleResult
      examplePools hS hK).2.2 rfl rfl⟩

/-- C8: the `ApplyEffects` of the proc spell, cast at time `now` with `now + SpellBatchWindow`
representable, calls the weapon damage roll and `CalcDamage` and then `StartDelayedAction`,
and nothing else: no call of it changes the health of a unit or the mana of the paladin, and
exactly one delayed action is scheduled, at `now + SpellBatchWindow` with priority
`ActionPriorityLow`.  That action carries the result `CalcDamage` returned at `now`; when it
is dispatched, in whatever later state, it calls `DealDamage` with this result and then runs
`triggerSealOfMartyrdomSelfDamage` on this result, without another `CalcDamage`. -/
theorem proc_spell_defers_damage {σ : Type} (core : PaladinCore σ) (k : CoreConsts)
    (paladin : Paladin) (now : Int) (target : UnitRef) (s : σ)
    (hfit : fitsInt64 (now + k.SpellBatchWindow)) :
    ∃ (attackPower baseDamage : ℚ) (result : SpellResult) (s1 s2 : σ),
      attackPower = core.MeleeAttackPower (procSpell k paladin) s ∧
      (baseDamage, s1) = core.MHNormalizedWeaponDamage attackPower s ∧
      (result, s2) = core.CalcDamage (procSpell k paladin) target baseDamage
        .OutcomeMeleeSpecialHitAndCrit s1 ∧
      (procSpellApplyEffects core k paladin now target { sim := s, calls := [] }).calls =
        [ PaladinCall.MHNormalizedWeaponDamage attackPower baseDamage,
          PaladinCall.CalcDamage (procSpell k paladin) target baseDamage
            .OutcomeMeleeSpecialHitAndCrit result,
          PaladinCall.StartDelayedAction
            { DoAt := now + k.SpellBatchWindow
              Priority := k.ActionPriorityLow
              OnAction := .dealSealOfMartyrdomProc (procSpell k paladin) result } ] ∧
      (∀ c ∈ (procSpellApplyEffects core k paladin now target { sim := s, calls := [] }).calls,
        c.changesResources = false) ∧
      scheduled (procSpellApplyEffects core k paladin now target { sim := s, calls := [] }).calls =
        [ { DoAt := now + k.SpellBatchWindow
            Priority := k.ActionPriorityLow
            OnAction := .dealSealOfMartyrdomProc (procSpell k paladin) result } ] ∧
      (procSpellApplyEffects core k paladin now target { sim := s, calls := [] }).sim =
        core.StartDelayedAction
          { DoAt := now + k.SpellBatchWindow
            Priority := k.ActionPriorityLow
            OnAction := .dealSealOfMartyrdomProc (procSpell k paladin) result } s2 ∧
      ∀ (later : Paladin) (sLater : σ),
        (runDelayedAction core k later
            (.dealSealOfMartyrdomProc (procSpell k paladin) result)
            { sim := sLater, calls := [] }).calls =
          PaladinCall.DealDamage (procSpell k paladin) result ::
            (triggerSealOfMartyrdomSelfDamage core k later result
              { sim := core.DealDamage (procSpell k paladin) result sLater, calls := [] }).calls ∧
        (runDelayedAction core k later
            (.dealSealOfMartyrdomProc (procSpell k paladin) result)
            { sim := sLater, calls := [] }).sim =
          (triggerSealOfMartyrdomSelfDamage core k later result
            { sim := core.DealDamage (procSpell k paladin) result sLater, calls := [] }).sim := by
  have hw := wrapInt64_of_fits _ hfit
  refine ⟨_, _, _, _, _, rfl, rfl, rfl, ?_, ?_, ?_, ?_, ?_⟩
  · simp [procSpellApplyEffects, hw]
  · simp [procSpellApplyEffects, PaladinCall.changesResources]
  · simp [procSpellApplyEffects, scheduled, hw]
  · simp [procSpellApplyEffects, hw]
  · intro later sLater
    simp [runDelayedAction, triggerSealOfMartyrdomSelfDamage]

/-- C8 for a cast at time 0 with a batch window of 10 ms on the sample pools: the pools are
as before the cast and one action is pending. -/
theorem proc_spell_defers_damage_witness :
    fitsInt64 (0 + exampleConsts.SpellBatchWindow) ∧
    (scheduled (procSpellApplyEffects poolCore exampleConsts examplePaladin 0 1
        { sim := examplePools, calls := [] }).calls).length = 1 ∧
    (procSpellApplyEffects poolCore exampleConsts examplePaladin 0 1
        { sim := examplePools, calls := [] }).sim.targetHealth = examplePools.targetHealth ∧
    (procSpellApplyEffects poolCore exampleConsts examplePaladin 0 1
        { sim := examplePools, calls := [] }).sim.health = examplePools.health ∧
    (procSpellApplyEffects poolCore exampleConsts examplePaladin 0 1
        { sim := examplePools, calls := [] }).sim.mana = examplePools.mana := by
  have hfit : fitsInt64 (0 + exampleConsts.SpellBatchWindow) := by decide
  obtain ⟨_, _, _, _, s2, _, h2, h3, _, _, hsched, hsim, _⟩ :=
    proc_spell_defers_damage poolCore exampleConsts examplePaladin 0 1 examplePools hfit
  have hs2 : s2 = examplePools := by
    simp [poolCore] at h2 h3
    rw [h3.2, h2.2]
  refine ⟨hfit, ?_, ?_, ?_, ?_⟩
  · rw [hsched]; rfl
  · rw [hsim, hs2]; rfl
  · rw [hsim, hs2]; rfl
  · rw [hsim, hs2]; rfl

end Sod
